import Mathlib

/-!
Verification development for the Email-Dashboard backend (src/app.py).

The Python source is shallowly embedded: each helper of app.py becomes a Lean
definition of the same name, JSON dictionaries become structures whose fields
carry `Option` exactly where the source tolerates (or crashes on) an absent
key, and Python exceptions become `Except` error values.  Dates follow the
semantics of `datetime.date` (proleptic Gregorian, years 1..9999) and
`datetime.strptime` with the format `"%Y-%m-%d"` as implemented by CPython
(ASCII digits; a 4-digit year; month and day admit a missing leading zero).
-/

namespace EmailDashboard

/-- Leap-year rule of `datetime` (proleptic Gregorian). -/
def isLeap (y : Nat) : Bool := y % 4 == 0 && (y % 100 != 0 || y % 400 == 0)

/-- Days in a month, as `datetime.date` validates them. -/
def daysInMonth (y m : Nat) : Nat :=
  if m = 2 then (if isLeap y then 29 else 28)
  else if m = 4 ∨ m = 6 ∨ m = 9 ∨ m = 11 then 30
  else 31

/-- A calendar date as held by `datetime.date`. -/
structure Date where
  year : Nat
  month : Nat
  day : Nat
deriving Repr, DecidableEq

/-- The validation performed by the `datetime.date` constructor
(`MINYEAR = 1`, `MAXYEAR = 9999`, day within the month). -/
def validDate (d : Date) : Bool :=
  1 ≤ d.year && d.year ≤ 9999 &&
  1 ≤ d.month && d.month ≤ 12 &&
  1 ≤ d.day && d.day ≤ daysInMonth d.year d.month

/-- Python date comparison `end_dt < start_dt`: lexicographic on
(year, month, day). -/
def dateLt (a b : Date) : Bool :=
  a.year < b.year ||
  (a.year = b.year && (a.month < b.month ||
    (a.month = b.month && a.day < b.day)))

/-- Numeric value of an ASCII decimal digit. -/
def digitVal (c : Char) : Option Nat :=
  if '0' ≤ c ∧ c ≤ '9' then some (c.toNat - 48) else none

/-- The `%Y` directive of CPython strptime: exactly four digits. -/
def parseY4 : List Char → Option (Nat × List Char)
  | a :: b :: c :: d :: rest => do
    let va ← digitVal a
    let vb ← digitVal b
    let vc ← digitVal c
    let vd ← digitVal d
    some (va * 1000 + vb * 100 + vc * 10 + vd, rest)
  | _ => none

/-- The `%m` directive of CPython strptime, the ordered regex alternation
`1[0-2] | 0[1-9] | [1-9]`: a two-digit month 01..12, or a single digit 1..9
without a leading zero.  (Committing to the two-digit alternative is safe:
when it matches, the following character is a digit, so the literal `-` that
must follow the month in the format can never rescue the one-digit
alternative by backtracking.) -/
def parseMonth2 : List Char → Option (Nat × List Char)
  | '1' :: c :: rest =>
    if '0' ≤ c ∧ c ≤ '2' then some (10 + (c.toNat - 48), rest)
    else some (1, c :: rest)
  | '0' :: c :: rest =>
    if '1' ≤ c ∧ c ≤ '9' then some (c.toNat - 48, rest) else none
  | c :: rest =>
    if '1' ≤ c ∧ c ≤ '9' then some (c.toNat - 48, rest) else none
  | [] => none

/-- The `%d` directive of CPython strptime, the ordered regex alternation
`3[01] | [12]\d | 0[1-9] | [1-9]`: a two-digit day 01..31, or a single digit
1..9 without a leading zero.  (The same commitment argument applies, with
end-of-string playing the role of the literal.) -/
def parseDay2 : List Char → Option (Nat × List Char)
  | '3' :: c :: rest =>
    if c = '0' ∨ c = '1' then some (30 + (c.toNat - 48), rest)
    else some (3, c :: rest)
  | '0' :: c :: rest =>
    if '1' ≤ c ∧ c ≤ '9' then some (c.toNat - 48, rest) else none
  | c :: c2 :: rest =>
    if (c = '1' ∨ c = '2') ∧ '0' ≤ c2 ∧ c2 ≤ '9' then
      some ((c.toNat - 48) * 10 + (c2.toNat - 48), rest)
    else if '1' ≤ c ∧ c ≤ '9' then some (c.toNat - 48, c2 :: rest)
    else none
  | [c] =>
    if '1' ≤ c ∧ c ≤ '9' then some (c.toNat - 48, []) else none
  | [] => none

/-- The anchored regex phase of CPython strptime for `"%Y-%m-%d"`: year `-`
month `-` day, and the whole string must be consumed ("unconverted data
remains" otherwise). -/
def regexYmd (cs : List Char) : Option Date :=
  match parseY4 cs with
  | none => none
  | some (y, r1) =>
    match r1 with
    | '-' :: r2 =>
      match parseMonth2 r2 with
      | none => none
      | some (m, r3) =>
        match r3 with
        | '-' :: r4 =>
          match parseDay2 r4 with
          | none => none
          | some (d, r5) => if r5 = [] then some ⟨y, m, d⟩ else none
        | _ => none
    | _ => none

/-- `datetime.strptime(s, "%Y-%m-%d").date()`: the regex match followed by
the `datetime` constructor's calendar validation.  A failure either way is
Python's `ValueError`. -/
def strptime_Ymd (s : String) : Option Date :=
  match regexYmd s.data with
  | none => none
  | some dt => if validDate dt then some dt else none

/-- `end_dt + timedelta(days=1)`: the next calendar day, or `none` for the
`OverflowError` that `datetime.date` raises past `9999-12-31`. -/
def succDay (d : Date) : Option Date :=
  if d.day < daysInMonth d.year d.month then some ⟨d.year, d.month, d.day + 1⟩
  else if d.month < 12 then some ⟨d.year, d.month + 1, 1⟩
  else if d.year < 9999 then some ⟨d.year + 1, 1, 1⟩
  else none

/-- Zero-padded two-digit rendering, as strftime `%m` and `%d` produce. -/
def pad2 (n : Nat) : String := if n < 10 then "0" ++ toString n else toString n

/-- `strftime('%Y/%m/%d')` on the reference platform: the year in decimal
(glibc does not pad `%Y`; all parseable inputs have a four-digit year anyway),
month and day zero-padded to two digits, separated by slashes. -/
def fmtSlash (d : Date) : String :=
  toString d.year ++ "/" ++ pad2 d.month ++ "/" ++ pad2 d.day

/-- The distinguishable failures of `build_date_query`: the two `ValueError`s
it raises itself, and the `OverflowError` escaping from `end_dt +
timedelta(days=1)` (raised outside the `try` block, hence never converted to
a `ValueError`). -/
inductive DateQueryError where
  | invalidFormat
  | invalidRange
  | overflow
deriving Repr, DecidableEq

/-- `build_date_query` (src/app.py lines 54-66): parse both inputs with
`strptime("%Y-%m-%d")` (`ValueError` → "Dates must be in YYYY-MM-DD format"),
reject `end_dt < start_dt` ("End date must be on or after start date"), then
render `after:<start> before:<end+1day>` with `strftime('%Y/%m/%d')`. -/
def build_date_query (start_yyyy_mm_dd end_yyyy_mm_dd : String) :
    Except DateQueryError String :=
  match strptime_Ymd start_yyyy_mm_dd, strptime_Ymd end_yyyy_mm_dd with
  | some start_dt, some end_dt =>
    if dateLt end_dt start_dt then .error .invalidRange
    else
      match succDay end_dt with
      | some before_exclusive =>
        .ok ("after:" ++ fmtSlash start_dt ++ " before:" ++
          fmtSlash before_exclusive)
      | none => .error .overflow
  | _, _ => .error .invalidFormat

/-- A message stub from `users().messages().list` (only its `id` is used). -/
structure MsgStub where
  id : String
deriving Repr, DecidableEq

/-- One response of the paginated `users().messages().list` endpoint.  The
`messages` key is absent when the page is empty (`resp.get('messages', [])`),
and `nextPageToken` is absent on the last page (`resp.get('nextPageToken')`). -/
structure ListResp where
  messages : Option (List MsgStub)
  nextPageToken : Option String
deriving Repr, DecidableEq

/-- The loop exit `if not page_token: break` tests Python falsiness:
an absent token and an empty-string token both stop the pagination. -/
def tokenDone (t : Option String) : Bool :=
  match t with
  | none => true
  | some s => s = ""

/-- `count_messages` (src/app.py lines 28-51) over the sequence of responses
the provider returns to its successive `list` calls, in order.  Each round
adds `len(resp.get('messages', []))` to the running total and re-reads the
cursor; the loop exits when the cursor is falsy.  `none` means the response
sequence was exhausted while the loop still wanted another page (the remote
call has no answer to model, so no total is produced). -/
def count_messages : List ListResp → Option Nat
  | [] => none
  | resp :: rest =>
    let count := (resp.messages.getD []).length
    if tokenDone resp.nextPageToken then some count
    else (count_messages rest).map (fun t => count + t)

/-- A thread stub from `users().threads().list`. -/
structure ThreadStub where
  id : String
deriving Repr, DecidableEq

/-- One response of the paginated `users().threads().list` endpoint. -/
structure ThreadListResp where
  threads : Option (List ThreadStub)
  nextPageToken : Option String
deriving Repr, DecidableEq

/-- `count_messages_by_thread` (src/app.py lines 90-103): structurally the
same loop as `count_messages`, accumulating `len(response.get('threads', []))`
instead. -/
def count_messages_by_thread : List ThreadListResp → Option Nat
  | [] => none
  | resp :: rest =>
    let count := (resp.threads.getD []).length
    if tokenDone resp.nextPageToken then some count
    else (count_messages_by_thread rest).map (fun t => count + t)

/-- Value of a character in the standard base64 alphabet. -/
def b64Val (c : Char) : Option Nat :=
  if 'A' ≤ c ∧ c ≤ 'Z' then some (c.toNat - 65)
  else if 'a' ≤ c ∧ c ≤ 'z' then some (c.toNat - 97 + 26)
  else if '0' ≤ c ∧ c ≤ '9' then some (c.toNat - 48 + 52)
  else if c = '+' then some 62
  else if c = '/' then some 63
  else none

/-- Decode base64 data characters (padding already stripped) into bytes:
full quads give three bytes, a final pair or triple gives one or two. -/
def decodeQuads : List Char → Option (List Nat)
  | [] => some []
  | [_] => none
  | [a, b] => do
    let va ← b64Val a
    let vb ← b64Val b
    some [va * 4 + vb / 16]
  | [a, b, c] => do
    let va ← b64Val a
    let vb ← b64Val b
    let vc ← b64Val c
    some [va * 4 + vb / 16, (vb % 16) * 16 + vc / 4]
  | a :: b :: c :: d :: rest => do
    let va ← b64Val a
    let vb ← b64Val b
    let vc ← b64Val c
    let vd ← b64Val d
    let tail ← decodeQuads rest
    some ((va * 4 + vb / 16) :: ((vb % 16) * 16 + vc / 4) ::
      ((vc % 4) * 64 + vd) :: tail)

/-- Split off trailing `=` padding; padding anywhere else is rejected. -/
def dataAndPad : List Char → Option (List Char × Nat)
  | [] => some ([], 0)
  | '=' :: rest =>
    if rest = [] then some ([], 1)
    else if rest = ['='] then some ([], 2)
    else none
  | c :: rest => do
    let (d, p) ← dataAndPad rest
    some (c :: d, p)

/-- `base64.urlsafe_b64decode` on a str: the input must be ASCII, `-`/`_` are
translated to `+`/`/`, characters outside the base64 alphabet are discarded
(legacy non-strict mode), and the padding must complete the final quad
(`binascii.Error` otherwise, modelled as `none`). -/
def urlsafe_b64decode (s : String) : Option (List Nat) :=
  if s.data.all (fun c => c.toNat < 128) then do
    let translated := s.data.map
      (fun c => if c = '-' then '+' else if c = '_' then '/' else c)
    let kept := translated.filter (fun c => (b64Val c).isSome || c == '=')
    let (dchars, pad) ← dataAndPad kept
    let n := dchars.length
    if (n % 4 = 0 ∧ pad = 0) ∨ (n % 4 = 3 ∧ pad = 1) ∨ (n % 4 = 2 ∧ pad = 2)
    then decodeQuads dchars
    else none
  else none

/-- Strict UTF-8 decoding of a byte list, as `bytes.decode('utf-8')`:
rejects stray continuation bytes, overlong encodings, surrogates and
code points beyond U+10FFFF (`UnicodeDecodeError`, modelled as `none`). -/
def utf8Decode : List Nat → Option (List Char)
  | [] => some []
  | b :: rest =>
    if b < 0x80 then do
      let tail ← utf8Decode rest
      some (Char.ofNat b :: tail)
    else if b < 0xC2 then none
    else if b < 0xE0 then
      match rest with
      | b1 :: rest1 =>
        if 0x80 ≤ b1 ∧ b1 < 0xC0 then do
          let tail ← utf8Decode rest1
          some (Char.ofNat ((b - 0xC0) * 64 + (b1 - 0x80)) :: tail)
        else none
      | [] => none
    else if b < 0xF0 then
      match rest with
      | b1 :: b2 :: rest2 =>
        if 0x80 ≤ b1 ∧ b1 < 0xC0 ∧ 0x80 ≤ b2 ∧ b2 < 0xC0 then
          let cp := (b - 0xE0) * 4096 + (b1 - 0x80) * 64 + (b2 - 0x80)
          if 0x800 ≤ cp ∧ ¬(0xD800 ≤ cp ∧ cp ≤ 0xDFFF) then do
            let tail ← utf8Decode rest2
            some (Char.ofNat cp :: tail)
          else none
        else none
      | _ => none
    else if b < 0xF5 then
      match rest with
      | b1 :: b2 :: b3 :: rest3 =>
        if 0x80 ≤ b1 ∧ b1 < 0xC0 ∧ 0x80 ≤ b2 ∧ b2 < 0xC0 ∧
            0x80 ≤ b3 ∧ b3 < 0xC0 then
          let cp := (b - 0xF0) * 262144 + (b1 - 0x80) * 4096 +
            (b2 - 0x80) * 64 + (b3 - 0x80)
          if 0x10000 ≤ cp ∧ cp ≤ 0x10FFFF then do
            let tail ← utf8Decode rest3
            some (Char.ofNat cp :: tail)
          else none
        else none
      | _ => none
    else none

/-- The exceptions `get_sent_email_details` can raise while extracting one
message: `KeyError` from a missing dict key, `binascii.Error` from
`urlsafe_b64decode`, `UnicodeDecodeError` from `.decode('utf-8')`. -/
inductive ExtractErr where
  | keyError
  | badBase64
  | badUtf8
deriving Repr, DecidableEq

/-- `base64.urlsafe_b64decode(data).decode('utf-8')`. -/
def decodeBody (data : String) : Except ExtractErr String :=
  match urlsafe_b64decode data with
  | none => .error .badBase64
  | some bytes =>
    match utf8Decode bytes with
    | none => .error .badUtf8
    | some cs => .ok (String.mk cs)

/-- One entry of `message['payload']['headers']`. -/
structure Header where
  name : String
  value : String
deriving Repr, DecidableEq

/-- `part['body']`; its `data` key may be absent (KeyError when read). -/
structure PartBody where
  data : Option String
deriving Repr, DecidableEq

/-- One entry of `message['payload']['parts']`. -/
structure Part where
  mimeType : String
  body : PartBody
deriving Repr, DecidableEq

/-- `message['payload']`: the `headers` key is read unguarded (KeyError when
absent); the `parts` key is tested with `if 'parts' in message['payload']`. -/
structure Payload where
  headers : Option (List Header)
  parts : Option (List Part)
deriving Repr, DecidableEq

/-- A full message from `users().messages().get`; its `payload` key is read
unguarded (KeyError when absent). -/
structure GmailMessage where
  payload : Option Payload
deriving Repr, DecidableEq

/-- The record built per message (Python dict `email_data`); every key is
absent until assigned. -/
structure EmailData where
  «to» : Option String
  subject : Option String
  date : Option String
  message : Option String
deriving Repr, DecidableEq

/-- One step of the header loop of src/app.py lines 124-130: each header
named To/Subject/Date assigns its value into `email_data`. -/
def applyHeader (acc : EmailData) (h : Header) : EmailData :=
  if h.name = "To" then { acc with «to» := some h.value }
  else if h.name = "Subject" then { acc with subject := some h.value }
  else if h.name = "Date" then { acc with date := some h.value }
  else acc

/-- The body loop of src/app.py lines 134-139: scan the parts in order; at
the first part whose `mimeType` is exactly `"text/plain"`, read
`part['body']['data']`, decode it and stop (`break`).  Parts after the first
match are never examined. -/
def scanParts : List Part → Except ExtractErr (Option String)
  | [] => .ok none
  | p :: rest =>
    if p.mimeType = "text/plain" then
      match p.body.data with
      | none => .error .keyError
      | some d =>
        match decodeBody d with
        | .error e => .error e
        | .ok s => .ok (some s)
    else scanParts rest

/-- The per-message extraction body of `get_sent_email_details`
(src/app.py lines 122-141): read `payload` and `headers` unguarded, fold the
header loop over all headers, then (only if a `parts` key exists) run the
body scan. -/
def extract_email_data (message : GmailMessage) : Except ExtractErr EmailData :=
  match message.payload with
  | none => .error .keyError
  | some payload =>
    match payload.headers with
    | none => .error .keyError
    | some headers =>
      let email_data := headers.foldl applyHeader ⟨none, none, none, none⟩
      match payload.parts with
      | none => .ok email_data
      | some parts =>
        match scanParts parts with
        | .error e => .error e
        | .ok msgBody => .ok { email_data with message := msgBody }

/-- The failures that abort `get_sent_email_details`: a remote error from an
individual `messages().get` call (carrying the Python exception type name),
or an extraction error. -/
inductive DetailsErr where
  | remote (exnName : String)
  | extract (e : ExtractErr)
deriving Repr, DecidableEq

/-- The inner `for msg in resp.get('messages', [])` loop: fetch each stub's
full message and extract it; the first exception aborts the whole loop and
the partial `email_details` accumulated so far is discarded. -/
def processStubs (get : String → Except String GmailMessage) :
    List MsgStub → Except DetailsErr (List EmailData)
  | [] => .ok []
  | s :: rest =>
    match get s.id with
    | .error e => .error (.remote e)
    | .ok m =>
      match extract_email_data m with
      | .error e => .error (.extract e)
      | .ok d => (processStubs get rest).map (fun ds => d :: ds)

/-- `get_sent_email_details` (src/app.py lines 106-147) over the sequence of
listing responses, with `get` standing for `messages().get(...).execute()`.
Same pagination skeleton as `count_messages` (same falsy-token exit), but
each page's stubs are fetched and extracted, appending one record per stub
in listing order.  `none` again means the response sequence ran out while
the loop wanted another page; any exception aborts the whole call with no
partial results. -/
def get_sent_email_details (get : String → Except String GmailMessage) :
    List ListResp → Option (Except DetailsErr (List EmailData))
  | [] => none
  | resp :: rest =>
    match processStubs get (resp.messages.getD []) with
    | .error e => some (.error e)
    | .ok ds =>
      if tokenDone resp.nextPageToken then some (.ok ds)
      else
        (get_sent_email_details get rest).map
          (fun r => r.map (fun tail => ds ++ tail))

/-- The sent-direction query of `dashboard` and `sent_details`
(src/app.py lines 171 and 216). -/
def sent_q (date_q : String) : String := date_q ++ " label:sent"

/-- The received-direction query of `dashboard` (src/app.py lines 175-177). -/
def received_q (date_q : String) : String :=
  date_q ++ " label:inbox -label:sent -label:drafts -label:spam -label:trash -from:me"

/-- Python exception type name of an extraction error, as interpolated into
`'Failed to fetch Gmail data: {type(e).__name__}'` (`binascii.Error` is
literally named `Error`). -/
def extractErrName : ExtractErr → String
  | .keyError => "KeyError"
  | .badBase64 => "Error"
  | .badUtf8 => "UnicodeDecodeError"

/-- Python exception type name of a details-path failure. -/
def detailsErrName : DetailsErr → String
  | .remote n => n
  | .extract e => extractErrName e

/-- Whether the Python exception modelled by a details failure is a
`ValueError`, caught by the route's first handler: `binascii.Error` and
`UnicodeDecodeError` both subclass `ValueError`; `KeyError` and the
remote `googleapiclient` errors do not. -/
def isValueError : DetailsErr → Bool
  | .extract .badBase64 => true
  | .extract .badUtf8 => true
  | _ => false

/-- Stand-in for `str(e)` of a decode failure taking the `ValueError` path;
the exact text comes from the Python runtime and is not modelled, only
which handler fires. -/
def valueErrorMessage : DetailsErr → String
  | e => detailsErrName e

/-- The JSON replies the `/sent_details` route can produce: HTTP 200 with
the records, HTTP 400 with a `ValueError` message, HTTP 500 with an
exception-category message. -/
inductive SentDetailsResp where
  | success (email_details : List EmailData)
  | badRequest (error : String)
  | serverFailure (error : String)
deriving Repr, DecidableEq

/-- The `/sent_details` handler (src/app.py lines 198-228) after the
missing-parameter check, with `details` standing for running
`get_sent_email_details(service, 'me', ·)` on the given query: any
`ValueError` raised inside the `try` block (from `build_date_query`, or a
decode failure, since `binascii.Error` and `UnicodeDecodeError` subclass
`ValueError`) → HTTP 400 echoing `str(ve)`; any other exception (the date
overflow, a remote failure, a `KeyError`) → HTTP 500 with only the
exception type name; otherwise HTTP 200 with the records. -/
def sent_details (start_date end_date : String)
    (details : String → Except DetailsErr (List EmailData)) : SentDetailsResp :=
  match build_date_query start_date end_date with
  | .error .invalidFormat => .badRequest "Dates must be in YYYY-MM-DD format"
  | .error .invalidRange => .badRequest "End date must be on or after start date"
  | .error .overflow => .serverFailure "Failed to fetch Gmail data: OverflowError"
  | .ok date_q =>
    match details (sent_q date_q) with
    | .error e =>
      if isValueError e then .badRequest (valueErrorMessage e)
      else .serverFailure ("Failed to fetch Gmail data: " ++ detailsErrName e)
    | .ok ds => .success ds

/-! ## Supporting lemmas about the date model -/

/-- A date that survives `strptime` was validated by the `datetime`
constructor. -/
theorem strptime_validDate {s : String} {d : Date}
    (h : strptime_Ymd s = some d) : validDate d = true := by
  unfold strptime_Ymd at h
  split at h
  · exact absurd h (by simp)
  · split at h
    · cases h; assumption
    · exact absurd h (by simp)

/-- `daysInMonth` is 31 in December, whatever the year. -/
theorem daysInMonth_december (y : Nat) : daysInMonth y 12 = 31 := by
  simp [daysInMonth]

/-- On a valid date, adding one day overflows exactly at `9999-12-31`
(`datetime.date.max`). -/
theorem succDay_eq_none_iff {d : Date} (hv : validDate d = true) :
    succDay d = none ↔ d = ⟨9999, 12, 31⟩ := by
  obtain ⟨y, m, dd⟩ := d
  simp only [validDate, Bool.and_eq_true, decide_eq_true_eq, and_assoc] at hv
  obtain ⟨h1, h2, h3, h4, h5, h6⟩ := hv
  unfold succDay
  constructor
  · intro h
    by_cases hd : dd < daysInMonth y m
    · simp [hd] at h
    · by_cases hm : m < 12
      · simp [hd, hm] at h
      · by_cases hy : y < 9999
        · simp [hd, hm, hy] at h
        · have hm12 : m = 12 := by omega
          subst hm12
          rw [daysInMonth_december] at h6 hd
          simp only [Date.mk.injEq]
          exact ⟨by omega, trivial, by omega⟩
  · intro h
    cases h
    decide

/-! ## C1 -/

/-- C1: the claim quantifies over every pair of parseable dates with
`start <= end` and asserts the compiled string is always returned.  This
fails at `start = end = "9999-12-31"`: both parse, the range is valid, yet
`end_dt + timedelta(days=1)` raises `OverflowError` (date value out of
range), so `build_date_query` raises instead of returning the string. -/
theorem C1_counterexample :
    strptime_Ymd "9999-12-31" = some ⟨9999, 12, 31⟩ ∧
    dateLt ⟨9999, 12, 31⟩ ⟨9999, 12, 31⟩ = false ∧
    build_date_query "9999-12-31" "9999-12-31" = .error .overflow := by
  refine ⟨by decide, by decide, by rfl⟩

/-- C1 (amended): for every pair of input strings that parse with
`start <= end` and end date other than `9999-12-31`, `build_date_query`
returns exactly `after:S before:E` with `S` the start date and `E` the
successor of the end date, both rendered in the provider's slash form. -/
theorem C1_date_query_ok (s e : String) (ds de : Date)
    (hs : strptime_Ymd s = some ds) (he : strptime_Ymd e = some de)
    (hlt : dateLt de ds = false) (hne : de ≠ ⟨9999, 12, 31⟩) :
    ∃ b, succDay de = some b ∧
      build_date_query s e =
        .ok ("after:" ++ fmtSlash ds ++ " before:" ++ fmtSlash b) := by
  have hv := strptime_validDate he
  have hsucc : succDay de ≠ none := fun h => hne ((succDay_eq_none_iff hv).mp h)
  obtain ⟨b, hb⟩ := Option.ne_none_iff_exists'.mp hsucc
  exact ⟨b, hb, by simp [build_date_query, hs, he, hlt, hb]⟩

/-- C1 witness: the spec's own scenario, instantiating the amended claim at
`start="2024-01-01"`, `end="2024-01-31"`. -/
theorem C1_witness :
    build_date_query "2024-01-01" "2024-01-31" =
      .ok "after:2024/01/01 before:2024/02/01" := by
  obtain ⟨b, hb, hq⟩ := C1_date_query_ok "2024-01-01" "2024-01-31"
    ⟨2024, 1, 1⟩ ⟨2024, 1, 31⟩ (by decide) (by decide) (by decide) (by decide)
  have hb2 : succDay ⟨2024, 1, 31⟩ = some ⟨2024, 2, 1⟩ := by decide
  rw [hb2] at hb
  cases hb
  exact hq.trans (by rfl)

/-! ## C5 -/

/-- C5: the claim asserts failure (`InvalidDateFormat`) whenever an input is
not in the exact `YYYY-MM-DD` form.  CPython strptime is lenient about the
leading zero of month and day, so `"2024-1-1"`/`"2024-1-2"` compile
successfully instead of failing. -/
theorem C5_counterexample :
    build_date_query "2024-1-1" "2024-1-2" =
      .ok "after:2024/01/01 before:2024/01/03" := by rfl

/-- C5 (amended): `build_date_query` fails with `InvalidDateFormat` iff
either input fails the (lenient) strptime parse, with `InvalidDateRange` iff
both parse and `end < start`, and with an uncaught `OverflowError` iff both
parse, `start <= end`, and the end date is `9999-12-31`; it succeeds on all
other inputs. -/
theorem C5_failure_characterization (s e : String) :
    (build_date_query s e = .error .invalidFormat ↔
      (strptime_Ymd s = none ∨ strptime_Ymd e = none)) ∧
    (build_date_query s e = .error .invalidRange ↔
      ∃ ds de, strptime_Ymd s = some ds ∧ strptime_Ymd e = some de ∧
        dateLt de ds = true) ∧
    (build_date_query s e = .error .overflow ↔
      ∃ ds de, strptime_Ymd s = some ds ∧ strptime_Ymd e = some de ∧
        dateLt de ds = false ∧ de = ⟨9999, 12, 31⟩) ∧
    ((∃ q, build_date_query s e = .ok q) ↔
      ∃ ds de, strptime_Ymd s = some ds ∧ strptime_Ymd e = some de ∧
        dateLt de ds = false ∧ de ≠ ⟨9999, 12, 31⟩) := by
  cases hs : strptime_Ymd s with
  | none => simp [build_date_query, hs]
  | some ds =>
    cases he : strptime_Ymd e with
    | none => simp [build_date_query, hs, he]
    | some de =>
      have hv := strptime_validDate he
      by_cases hlt : dateLt de ds = true
      · simp [build_date_query, hs, he, hlt]
      · have hlt2 : dateLt de ds = false := by
          simpa using hlt
        cases hb : succDay de with
        | none =>
          have hmax : de = ⟨9999, 12, 31⟩ := (succDay_eq_none_iff hv).mp hb
          subst hmax
          simp [build_date_query, hs, he, hlt2, hb]
        | some b =>
          have hne : de ≠ ⟨9999, 12, 31⟩ := by
            intro hEq
            subst hEq
            rw [show succDay ⟨9999, 12, 31⟩ = none from rfl] at hb
            exact Option.noConfusion hb
          simp [build_date_query, hs, he, hlt2, hb, hne]

/-! ## Pagination lemmas -/

/-- The message-count loop consumes responses up to and including the first
one with a falsy cursor and totals exactly those pages; later responses are
never requested. -/
theorem count_messages_stop (ps : List ListResp) (r : ListResp)
    (rest : List ListResp)
    (hps : ∀ p ∈ ps, tokenDone p.nextPageToken = false)
    (hr : tokenDone r.nextPageToken = true) :
    count_messages (ps ++ r :: rest) =
      some (((ps ++ [r]).map fun x => (x.messages.getD []).length).sum) := by
  induction ps with
  | nil => simp [count_messages, hr]
  | cons a t ih =>
    have ha : tokenDone a.nextPageToken = false := hps a (by simp)
    have ht : ∀ p ∈ t, tokenDone p.nextPageToken = false :=
      fun p hp => hps p (by simp [hp])
    simp [count_messages, ha, ih ht]

/-- Without a falsy cursor the message-count loop consumes every available
response and still asks for another page: it never terminates on its own. -/
theorem count_messages_no_stop (rs : List ListResp)
    (h : ∀ p ∈ rs, tokenDone p.nextPageToken = false) :
    count_messages rs = none := by
  induction rs with
  | nil => rfl
  | cons a t ih =>
    have ha := h a (by simp)
    simp [count_messages, ha, ih (fun p hp => h p (by simp [hp]))]

/-- Thread-level analogue of `count_messages_stop`. -/
theorem count_threads_stop (ps : List ThreadListResp) (r : ThreadListResp)
    (rest : List ThreadListResp)
    (hps : ∀ p ∈ ps, tokenDone p.nextPageToken = false)
    (hr : tokenDone r.nextPageToken = true) :
    count_messages_by_thread (ps ++ r :: rest) =
      some (((ps ++ [r]).map fun x => (x.threads.getD []).length).sum) := by
  induction ps with
  | nil => simp [count_messages_by_thread, hr]
  | cons a t ih =>
    have ha : tokenDone a.nextPageToken = false := hps a (by simp)
    have ht : ∀ p ∈ t, tokenDone p.nextPageToken = false :=
      fun p hp => hps p (by simp [hp])
    simp [count_messages_by_thread, ha, ih ht]

/-- Thread-level analogue of `count_messages_no_stop`. -/
theorem count_threads_no_stop (rs : List ThreadListResp)
    (h : ∀ p ∈ rs, tokenDone p.nextPageToken = false) :
    count_messages_by_thread rs = none := by
  induction rs with
  | nil => rfl
  | cons a t ih =>
    have ha := h a (by simp)
    simp [count_messages_by_thread, ha, ih (fun p hp => h p (by simp [hp]))]

/-! ## C2 -/

/-- C2: the claim's hypothesis only asks each non-final response to carry a
next-page cursor.  A present-but-empty cursor is falsy in Python, so on
pages of sizes `[50, 13]` whose first response carries the cursor `""` the
loop stops after the first page and returns 50, not 63. -/
theorem C2_counterexample :
    count_messages
      [⟨some (List.replicate 50 ⟨"m"⟩), some ""⟩,
       ⟨some (List.replicate 13 ⟨"n"⟩), none⟩] = some 50 ∧ 50 ≠ 63 := by
  exact ⟨rfl, by decide⟩

/-- C2 (amended): for every nonempty response sequence in which each
response before the last carries a nonempty next-page cursor and the last
carries none, `count_messages` returns the sum of the page sizes (`0` for an
empty result set). -/
theorem C2_count_sum (ps : List ListResp) (last : ListResp)
    (hps : ∀ p ∈ ps, ∃ t, p.nextPageToken = some t ∧ t ≠ "")
    (hlast : last.nextPageToken = none) :
    count_messages (ps ++ [last]) =
      some (((ps ++ [last]).map fun x => (x.messages.getD []).length).sum) := by
  have hps2 : ∀ p ∈ ps, tokenDone p.nextPageToken = false := by
    intro p hp
    obtain ⟨t, ht, hne⟩ := hps p hp
    simp [tokenDone, ht, hne]
  have hl : tokenDone last.nextPageToken = true := by simp [tokenDone, hlast]
  exact count_messages_stop ps last [] hps2 hl

/-- C2 witness: the spec's two-page `[50, 13]` scenario sums to 63, and a
single empty response (Gmail omits `messages` entirely) counts 0. -/
theorem C2_witness :
    count_messages [⟨some (List.replicate 50 ⟨"m"⟩), some "cursor1"⟩,
      ⟨some (List.replicate 13 ⟨"n"⟩), none⟩] = some 63 ∧
    count_messages [⟨none, none⟩] = some 0 := by
  constructor
  · have h := C2_count_sum [⟨some (List.replicate 50 ⟨"m"⟩), some "cursor1"⟩]
      ⟨some (List.replicate 13 ⟨"n"⟩), none⟩
      (by
        intro p hp
        simp only [List.mem_singleton] at hp
        subst hp
        exact ⟨"cursor1", rfl, by decide⟩)
      rfl
    exact h.trans (by rfl)
  · have h := C2_count_sum [] ⟨none, none⟩ (by intro p hp; simp at hp) rfl
    exact h.trans (by rfl)

/-! ## C6 -/

/-- C6: the claim says the loops stop only on a response with no next
cursor.  A response that does carry a cursor — the empty string — also stops
both loops (Python falsiness of `""`): with pages `[1, 2]` joined by an
empty-string cursor the totals are 1, not 3. -/
theorem C6_counterexample :
    count_messages
      [⟨some [⟨"m1"⟩], some ""⟩, ⟨some [⟨"m2"⟩, ⟨"m3"⟩], none⟩] = some 1 ∧
    count_messages_by_thread
      [⟨some [⟨"t1"⟩], some ""⟩, ⟨some [⟨"t2"⟩, ⟨"t3"⟩], none⟩] = some 1 := by
  exact ⟨rfl, rfl⟩

/-- C6 (amended): both pagination loops terminate exactly when a response's
cursor is falsy — absent or the empty string: they stop right after the
first such response, ignoring everything later, and without such a response
they never stop (they exhaust every available response still wanting
more). -/
theorem C6_termination (ps rest : List ListResp) (r : ListResp)
    (hps : ∀ p ∈ ps, tokenDone p.nextPageToken = false)
    (hr : tokenDone r.nextPageToken = true)
    (tps trest : List ThreadListResp) (tr : ThreadListResp)
    (htps : ∀ p ∈ tps, tokenDone p.nextPageToken = false)
    (htr : tokenDone tr.nextPageToken = true) :
    count_messages (ps ++ r :: rest) =
      some (((ps ++ [r]).map fun x => (x.messages.getD []).length).sum) ∧
    count_messages_by_thread (tps ++ tr :: trest) =
      some (((tps ++ [tr]).map fun x => (x.threads.getD []).length).sum) ∧
    (∀ rs : List ListResp, (∀ p ∈ rs, tokenDone p.nextPageToken = false) →
      count_messages rs = none) ∧
    (∀ rs : List ThreadListResp,
      (∀ p ∈ rs, tokenDone p.nextPageToken = false) →
      count_messages_by_thread rs = none) :=
  ⟨count_messages_stop ps r rest hps hr,
   count_threads_stop tps tr trest htps htr,
   count_messages_no_stop, count_threads_no_stop⟩

/-- C6 witness: instantiates the amended claim on a two-page message run and
a one-page thread run. -/
theorem C6_witness :
    count_messages [⟨some [⟨"a"⟩], some "tok"⟩, ⟨some [⟨"b"⟩], none⟩] =
      some 2 ∧
    count_messages_by_thread [⟨some [⟨"t"⟩], none⟩] = some 1 := by
  have h := C6_termination [⟨some [⟨"a"⟩], some "tok"⟩] [] ⟨some [⟨"b"⟩], none⟩
    (by
      intro p hp
      simp only [List.mem_singleton] at hp
      subst hp
      rfl)
    rfl
    [] [] ⟨some [⟨"t"⟩], none⟩ (by intro p hp; simp at hp) rfl
  exact ⟨h.1.trans (by rfl), h.2.1.trans (by rfl)⟩

/-! ## Header-loop lemmas -/

/-- The value a field of `email_data` holds after the header loop: the value
of the last header of that name, or `none` when no such header occurs. -/
def lastHeaderValue (nm : String) (hs : List Header) : Option String :=
  ((hs.filter fun h => h.name == nm).getLast?).map fun h => h.value

/-- Eliminator-to-map bridge for an `Option` defaulting to `none`. -/
theorem elim_none_eq_map {α β : Type} (o : Option α) (f : α → β) :
    Option.elim o none (fun x => some (f x)) = o.map f := by
  cases o <;> rfl

/-- Each field of the header-loop fold holds the value of the last header of
its name (later assignments overwrite earlier ones), defaulting to the
accumulator's field; the `message` field is never touched. -/
theorem foldl_applyHeader_fields (hs : List Header) (acc : EmailData) :
    (hs.foldl applyHeader acc).«to» =
      Option.elim ((hs.filter fun h => h.name == "To").getLast?) acc.«to»
        (fun h => some h.value) ∧
    (hs.foldl applyHeader acc).subject =
      Option.elim ((hs.filter fun h => h.name == "Subject").getLast?)
        acc.subject (fun h => some h.value) ∧
    (hs.foldl applyHeader acc).date =
      Option.elim ((hs.filter fun h => h.name == "Date").getLast?) acc.date
        (fun h => some h.value) ∧
    (hs.foldl applyHeader acc).message = acc.message := by
  induction hs using List.reverseRecOn with
  | nil => exact ⟨rfl, rfl, rfl, rfl⟩
  | append_singleton l a ih =>
    obtain ⟨ih1, ih2, ih3, ih4⟩ := ih
    by_cases hTo : a.name = "To"
    · simp [List.foldl_append, applyHeader, hTo, List.filter_append,
        List.getLast?_concat, ih1, ih2, ih3, ih4]
    · by_cases hSub : a.name = "Subject"
      · simp [List.foldl_append, applyHeader, hTo, hSub, List.filter_append,
          List.getLast?_concat, ih1, ih2, ih3, ih4]
      · by_cases hDate : a.name = "Date"
        · simp [List.foldl_append, applyHeader, hTo, hSub, hDate,
            List.filter_append, List.getLast?_concat, ih1, ih2, ih3, ih4]
        · simp [List.foldl_append, applyHeader, hTo, hSub, hDate,
            List.filter_append, ih1, ih2, ih3, ih4]

/-- The header loop started from the empty record produces exactly the
last-occurrence values, with no `message` field. -/
theorem headerFold_eq (hs : List Header) :
    hs.foldl applyHeader ⟨none, none, none, none⟩ =
      ⟨lastHeaderValue "To" hs, lastHeaderValue "Subject" hs,
        lastHeaderValue "Date" hs, none⟩ := by
  obtain ⟨h1, h2, h3, h4⟩ :=
    foldl_applyHeader_fields hs ⟨none, none, none, none⟩
  have heta : hs.foldl applyHeader ⟨none, none, none, none⟩ =
      ⟨(hs.foldl applyHeader ⟨none, none, none, none⟩).«to»,
       (hs.foldl applyHeader ⟨none, none, none, none⟩).subject,
       (hs.foldl applyHeader ⟨none, none, none, none⟩).date,
       (hs.foldl applyHeader ⟨none, none, none, none⟩).message⟩ := rfl
  rw [heta, h1, h2, h3, h4]
  unfold lastHeaderValue
  rw [← elim_none_eq_map, ← elim_none_eq_map, ← elim_none_eq_map]

/-! ## C3 -/

/-- C3: the claim says the first occurrence of a duplicated header wins.
The loop `if header['name'] == 'To': email_data['to'] = header['value']`
reassigns on every occurrence, so the LAST duplicate wins: with two `To`
headers the record holds the second value, not the first. -/
theorem C3_counterexample :
    extract_email_data
        ⟨some ⟨some [⟨"To", "first@x"⟩, ⟨"To", "second@y"⟩], none⟩⟩ =
      .ok ⟨some "second@y", none, none, none⟩ ∧
    ("second@y" : String) ≠ "first@x" := by
  exact ⟨rfl, by decide⟩

/-- C3 (amended): for every fetched message, the record holds, for each of
`To`/`Subject`/`Date` (case-sensitive exact match), the value of the LAST
occurrence of that header name; earlier duplicates are overwritten. -/
theorem C3_last_occurrence (hs : List Header) (parts : Option (List Part))
    (r : EmailData)
    (h : extract_email_data ⟨some ⟨some hs, parts⟩⟩ = .ok r) :
    r.«to» = lastHeaderValue "To" hs ∧
    r.subject = lastHeaderValue "Subject" hs ∧
    r.date = lastHeaderValue "Date" hs := by
  cases parts with
  | none =>
    simp only [extract_email_data] at h
    rw [headerFold_eq] at h
    simp only [Except.ok.injEq] at h
    subst h
    exact ⟨rfl, rfl, rfl⟩
  | some ps =>
    simp only [extract_email_data] at h
    rw [headerFold_eq] at h
    cases hscan : scanParts ps with
    | error e => rw [hscan] at h; exact absurd h (by simp)
    | ok b =>
      rw [hscan] at h
      simp only [Except.ok.injEq] at h
      subst h
      exact ⟨rfl, rfl, rfl⟩

/-- C3 witness: a record with duplicate `Subject` headers keeps the last
subject, instantiating the amended claim at a concrete message. -/
theorem C3_witness :
    lastHeaderValue "Subject"
      [⟨"To", "a@x"⟩, ⟨"Subject", "S1"⟩, ⟨"Subject", "S2"⟩, ⟨"Date", "D"⟩] =
      some "S2" := by
  have h := C3_last_occurrence
    [⟨"To", "a@x"⟩, ⟨"Subject", "S1"⟩, ⟨"Subject", "S2"⟩, ⟨"Date", "D"⟩]
    none ⟨some "a@x", some "S2", some "D", none⟩ (by rfl)
  exact h.2.1.symm

/-! ## Body-scan lemmas -/

/-- Parts whose MIME type is not exactly `text/plain` are skipped by the
body scan. -/
theorem scanParts_skip (pre ps : List Part)
    (hpre : ∀ q ∈ pre, q.mimeType ≠ "text/plain") :
    scanParts (pre ++ ps) = scanParts ps := by
  induction pre with
  | nil => rfl
  | cons a t ih =>
    have ha : a.mimeType ≠ "text/plain" := hpre a (by simp)
    have ht : ∀ q ∈ t, q.mimeType ≠ "text/plain" :=
      fun q hq => hpre q (by simp [hq])
    simp [scanParts, ha, ih ht]

/-- A part list with no `text/plain` part yields no body and no error. -/
theorem scanParts_none (ps : List Part)
    (h : ∀ q ∈ ps, q.mimeType ≠ "text/plain") :
    scanParts ps = .ok none := by
  have h2 := scanParts_skip ps [] h
  simpa using h2

/-! ## C4 -/

/-- C4: the body is taken from the FIRST part whose MIME type is exactly
`text/plain`, decoded from URL-safe base64 to UTF-8, and the scan stops
there — later parts (HTML or further text/plain) are ignored; a message
with no `parts` key, or whose parts never match, yields a record without a
`message` field and no error. -/
theorem C4_first_text_plain (hs : List Header) (pre post : List Part)
    (p : Part) (d s : String)
    (hpre : ∀ q ∈ pre, q.mimeType ≠ "text/plain")
    (hp : p.mimeType = "text/plain")
    (hd : p.body.data = some d)
    (hdec : decodeBody d = .ok s) :
    extract_email_data ⟨some ⟨some hs, some (pre ++ p :: post)⟩⟩ =
      .ok ⟨lastHeaderValue "To" hs, lastHeaderValue "Subject" hs,
        lastHeaderValue "Date" hs, some s⟩ ∧
    extract_email_data ⟨some ⟨some hs, none⟩⟩ =
      .ok ⟨lastHeaderValue "To" hs, lastHeaderValue "Subject" hs,
        lastHeaderValue "Date" hs, none⟩ ∧
    (∀ ps : List Part, (∀ q ∈ ps, q.mimeType ≠ "text/plain") →
      extract_email_data ⟨some ⟨some hs, some ps⟩⟩ =
        .ok ⟨lastHeaderValue "To" hs, lastHeaderValue "Subject" hs,
          lastHeaderValue "Date" hs, none⟩) := by
  have hscan : scanParts (pre ++ p :: post) = .ok (some s) := by
    rw [scanParts_skip pre _ hpre]
    simp [scanParts, hp, hd, hdec]
  refine ⟨?_, ?_, ?_⟩
  · simp [extract_email_data, hscan, headerFold_eq]
  · simp [extract_email_data, headerFold_eq]
  · intro ps hps
    simp [extract_email_data, scanParts_none ps hps, headerFold_eq]

/-- C4 witness: the spec's test vector, preceded by an HTML part and
followed by a decoy text/plain part, still decodes the first plain part
(`"aGk="` → `"hi"`); the same headers with no parts key give no body. -/
theorem C4_witness :
    extract_email_data ⟨some ⟨some [⟨"To", "a@x"⟩, ⟨"Subject", "S"⟩,
        ⟨"Date", "D"⟩],
      some [⟨"text/html", ⟨some "PGI+aGk8L2I+"⟩⟩,
        ⟨"text/plain", ⟨some "aGk="⟩⟩,
        ⟨"text/plain", ⟨some "bm90IHRoaXM="⟩⟩]⟩⟩ =
      .ok ⟨some "a@x", some "S", some "D", some "hi"⟩ ∧
    extract_email_data ⟨some ⟨some [⟨"To", "a@x"⟩, ⟨"Subject", "S"⟩,
        ⟨"Date", "D"⟩], none⟩⟩ =
      .ok ⟨some "a@x", some "S", some "D", none⟩ := by
  have h := C4_first_text_plain
    [⟨"To", "a@x"⟩, ⟨"Subject", "S"⟩, ⟨"Date", "D"⟩]
    [⟨"text/html", ⟨some "PGI+aGk8L2I+"⟩⟩]
    [⟨"text/plain", ⟨some "bm90IHRoaXM="⟩⟩]
    ⟨"text/plain", ⟨some "aGk="⟩⟩ "aGk=" "hi"
    (by
      intro q hq
      simp only [List.mem_singleton] at hq
      subst hq
      decide)
    rfl rfl (by rfl)
  exact ⟨h.1.trans (by rfl), h.2.1.trans (by rfl)⟩

/-! ## C7 -/

/-- C7: `dashboard` derives exactly two directional queries from the same
compiled date filter: the sent query conjoins `label:sent`, the received
query conjoins `label:inbox` with the negations of the `sent`, `drafts`,
`spam`, `trash` labels and of `from:me`. -/
theorem C7_directional_queries (date_q : String) :
    sent_q date_q = date_q ++ " " ++ "label:sent" ∧
    received_q date_q = date_q ++ " " ++ String.intercalate " "
      ["label:inbox", "-label:sent", "-label:drafts", "-label:spam",
        "-label:trash", "-from:me"] := by
  refine ⟨?_, ?_⟩
  · rw [String.append_assoc]
    rfl
  · rw [String.append_assoc]
    rfl

/-! ## Details-loop lemmas -/

/-- A successfully handled prefix does not prevent the first failing
`messages().get` from aborting the whole inner loop with its error. -/
theorem processStubs_first_error (get : String → Except String GmailMessage)
    (pre post : List MsgStub) (s : MsgStub) (e : String)
    (hpre : ∀ t ∈ pre, ∃ m d, get t.id = .ok m ∧ extract_email_data m = .ok d)
    (hs : get s.id = .error e) :
    processStubs get (pre ++ s :: post) = .error (.remote e) := by
  induction pre with
  | nil => simp [processStubs, hs]
  | cons a t ih =>
    obtain ⟨m, d, hm, hd⟩ := hpre a (by simp)
    have ht : ∀ q ∈ t, ∃ m d, get q.id = .ok m ∧ extract_email_data m = .ok d :=
      fun q hq => hpre q (by simp [hq])
    simp [processStubs, hm, hd, ih ht, Except.map]

/-! ## C8 -/

/-- C8: when fetching any single item fails, the inner loop aborts with that
first remote error, the whole `/sent_details` request answers the generic
HTTP 500 payload naming only the exception type, and no response carrying
records is ever produced — the records extracted before the failure are
discarded. -/
theorem C8_abort_on_first_remote_error
    (get : String → Except String GmailMessage)
    (pre post : List MsgStub) (s : MsgStub) (e : String)
    (tok : Option String) (rest : List ListResp)
    (hpre : ∀ t ∈ pre, ∃ m d, get t.id = .ok m ∧ extract_email_data m = .ok d)
    (hs : get s.id = .error e)
    (start_date end_date date_q : String)
    (hq : build_date_query start_date end_date = .ok date_q)
    (details : String → Except DetailsErr (List EmailData))
    (hdet : details (sent_q date_q) = .error (.remote e)) :
    get_sent_email_details get (⟨some (pre ++ s :: post), tok⟩ :: rest) =
      some (.error (.remote e)) ∧
    sent_details start_date end_date details =
      .serverFailure ("Failed to fetch Gmail data: " ++ e) ∧
    ∀ ds, sent_details start_date end_date details ≠ .success ds := by
  have hproc := processStubs_first_error get pre post s e hpre hs
  refine ⟨?_, ?_, ?_⟩
  · simp [get_sent_email_details, hproc]
  · simp [sent_details, hq, hdet, detailsErrName, isValueError]
  · intro ds
    simp [sent_details, hq, hdet, isValueError]

/-- C8 witness: a three-stub page whose middle fetch fails aborts with the
remote error, and the route converts the failure into the 500 payload. -/
theorem C8_witness :
    get_sent_email_details
      (fun i => if i = "bad" then .error "HttpError"
        else .ok ⟨some ⟨some [], none⟩⟩)
      [⟨some [⟨"good"⟩, ⟨"bad"⟩, ⟨"later"⟩], none⟩] =
      some (.error (.remote "HttpError")) ∧
    sent_details "2024-01-01" "2024-01-31"
      (fun _ => .error (.remote "HttpError")) =
      .serverFailure "Failed to fetch Gmail data: HttpError" := by
  have h := C8_abort_on_first_remote_error
    (fun i => if i = "bad" then .error "HttpError"
      else .ok ⟨some ⟨some [], none⟩⟩)
    [⟨"good"⟩] [⟨"later"⟩] ⟨"bad"⟩ "HttpError" none []
    (by
      intro t ht
      simp only [List.mem_singleton] at ht
      subst ht
      exact ⟨⟨some ⟨some [], none⟩⟩, ⟨none, none, none, none⟩, rfl, rfl⟩)
    rfl
    "2024-01-01" "2024-01-31" "after:2024/01/01 before:2024/02/01" (by rfl)
    (fun _ => .error (.remote "HttpError")) rfl
  exact ⟨h.1, h.2.1⟩

/-! ## Refinement observers for C9 -/

/-- The stubs the pagination loop actually consumes: every page up to and
including the first falsy-cursor response, flattened in listing order. -/
def consumedStubs : List ListResp → List MsgStub
  | [] => []
  | r :: rest =>
    if tokenDone r.nextPageToken then r.messages.getD []
    else r.messages.getD [] ++ consumedStubs rest

/-- The record one stub yields when its fetch and extraction both succeed. -/
def stubRecord (get : String → Except String GmailMessage) (s : MsgStub) :
    Option EmailData :=
  match get s.id with
  | .error _ => none
  | .ok m => (extract_email_data m).toOption

/-- The records of a whole stub list, `none` if any stub fails. -/
def recordsOf (get : String → Except String GmailMessage) :
    List MsgStub → Option (List EmailData)
  | [] => some []
  | s :: rest =>
    match stubRecord get s with
    | none => none
    | some d => (recordsOf get rest).map (fun ds => d :: ds)

/-- `recordsOf` distributes over list concatenation. -/
theorem recordsOf_append (get : String → Except String GmailMessage)
    (l1 l2 : List MsgStub) :
    recordsOf get (l1 ++ l2) =
      (recordsOf get l1).bind
        (fun a => (recordsOf get l2).map (fun b => a ++ b)) := by
  induction l1 with
  | nil =>
    simp only [List.nil_append]
    cases recordsOf get l2 <;> rfl
  | cons s t ih =>
    cases hsr : stubRecord get s with
    | none => simp [recordsOf, hsr]
    | some d =>
      simp [recordsOf, hsr, ih]
      cases recordsOf get t <;> cases recordsOf get l2 <;> rfl

/-- When every stub of a list succeeds, the inner loop returns exactly its
records, one per stub. -/
theorem processStubs_ok (get : String → Except String GmailMessage)
    (stubs : List MsgStub)
    (h : ∀ s ∈ stubs, (stubRecord get s).isSome = true) :
    ∃ ds, processStubs get stubs = .ok ds ∧
      recordsOf get stubs = some ds ∧ ds.length = stubs.length := by
  induction stubs with
  | nil => exact ⟨[], rfl, rfl, rfl⟩
  | cons a t ih =>
    have ha := h a (by simp)
    obtain ⟨ds, h1, h2, h3⟩ := ih (fun s hs => h s (by simp [hs]))
    cases hg : get a.id with
    | error e => simp [stubRecord, hg] at ha
    | ok m =>
      cases he : extract_email_data m with
      | error e => simp [stubRecord, hg, he, Except.toOption] at ha
      | ok d =>
        refine ⟨d :: ds, ?_, ?_, ?_⟩
        · simp [processStubs, hg, he, h1, Except.map]
        · simp [recordsOf, stubRecord, hg, he, Except.toOption, h2]
        · simp [h3]

/-! ## C9 -/

/-- C9: on listing pages where the counting loop yields a total, and where
every listed stub fetches and extracts successfully, the details loop
consumes exactly the same pages and returns exactly one record per listed
stub, in listing order, so the number of records equals the counted
total. -/
theorem C9_details_refines_count (get : String → Except String GmailMessage)
    (pages : List ListResp) (n : Nat)
    (hok : ∀ r ∈ pages, ∀ s ∈ r.messages.getD [],
      (stubRecord get s).isSome = true)
    (hcount : count_messages pages = some n) :
    ∃ ds, get_sent_email_details get pages = some (.ok ds) ∧
      recordsOf get (consumedStubs pages) = some ds ∧ ds.length = n := by
  induction pages generalizing n with
  | nil => exact absurd hcount (by simp [count_messages])
  | cons r rest ih =>
    have hr : ∀ s ∈ r.messages.getD [], (stubRecord get s).isSome = true :=
      hok r (by simp)
    obtain ⟨ds1, hp1, hr1, hl1⟩ := processStubs_ok get (r.messages.getD []) hr
    cases ht : tokenDone r.nextPageToken with
    | true =>
      have hcount2 : (r.messages.getD []).length = n := by
        have h0 := hcount
        simp [count_messages, ht] at h0
        exact h0
      refine ⟨ds1, ?_, ?_, ?_⟩
      · simp [get_sent_email_details, hp1, ht]
      · simp [consumedStubs, ht, hr1]
      · rw [hl1, hcount2]
    | false =>
      have hcount2 : ∃ n2, count_messages rest = some n2 ∧
          (r.messages.getD []).length + n2 = n := by
        have h0 := hcount
        simp [count_messages, ht, Option.map_eq_some'] at h0
        exact h0
      obtain ⟨n2, hn2, hfn⟩ := hcount2
      obtain ⟨ds2, h21, h22, h23⟩ :=
        ih n2 (fun q hq => hok q (by simp [hq])) hn2
      refine ⟨ds1 ++ ds2, ?_, ?_, ?_⟩
      · simp [get_sent_email_details, hp1, ht, h21, Except.map]
      · simp [consumedStubs, ht, recordsOf_append, hr1, h22]
      · simp [hl1, h23]
        omega
/-- C9 witness: two pages of stub sizes 2 and 1 with an always-succeeding
fetch produce exactly three records, matching the counted total 3. -/
theorem C9_witness :
    get_sent_email_details
      (fun _ => .ok ⟨some ⟨some [⟨"To", "x@y"⟩], none⟩⟩)
      [⟨some [⟨"a"⟩, ⟨"b"⟩], some "t1"⟩, ⟨some [⟨"c"⟩], none⟩] =
      some (.ok [⟨some "x@y", none, none, none⟩,
        ⟨some "x@y", none, none, none⟩, ⟨some "x@y", none, none, none⟩]) := by
  obtain ⟨ds, h1, h2, h3⟩ := C9_details_refines_count
    (fun _ => .ok ⟨some ⟨some [⟨"To", "x@y"⟩], none⟩⟩)
    [⟨some [⟨"a"⟩, ⟨"b"⟩], some "t1"⟩, ⟨some [⟨"c"⟩], none⟩] 3
    (by intro r hr s hs2; rfl) (by rfl)
  have h4 : recordsOf (fun _ => .ok ⟨some ⟨some [⟨"To", "x@y"⟩], none⟩⟩)
      (consumedStubs [⟨some [⟨"a"⟩, ⟨"b"⟩], some "t1"⟩,
        ⟨some [⟨"c"⟩], none⟩]) =
      some [⟨some "x@y", none, none, none⟩, ⟨some "x@y", none, none, none⟩,
        ⟨some "x@y", none, none, none⟩] := by rfl
  rw [h2] at h4
  rw [← Option.some.inj h4]
  exact h1

/-! ## C10 -/

/-- C10: a fetched message lacking the `payload` or `headers` key, or whose
first matched `text/plain` part lacks the `data` key, raises `KeyError`: the
whole details request aborts and `/sent_details` answers the generic HTTP
500 payload; only a missing `parts` key is tolerated. -/
theorem C10_missing_keys (m : GmailMessage)
    (hcase : m.payload = none ∨
      (∃ pl, m.payload = some pl ∧ pl.headers = none) ∨
      (∃ pl hs pre p post, m.payload = some pl ∧ pl.headers = some hs ∧
        pl.parts = some (pre ++ p :: post) ∧
        (∀ q ∈ pre, q.mimeType ≠ "text/plain") ∧
        p.mimeType = "text/plain" ∧ p.body.data = none))
    (start_date end_date date_q : String)
    (hq : build_date_query start_date end_date = .ok date_q)
    (details : String → Except DetailsErr (List EmailData))
    (hdet : details (sent_q date_q) = .error (.extract .keyError)) :
    extract_email_data m = .error .keyError ∧
    (∀ (get : String → Except String GmailMessage) (sid : MsgStub)
      (tok : Option String) (rest : List ListResp), get sid.id = .ok m →
      get_sent_email_details get (⟨some [sid], tok⟩ :: rest) =
        some (.error (.extract .keyError))) ∧
    sent_details start_date end_date details =
      .serverFailure "Failed to fetch Gmail data: KeyError" ∧
    (∀ hs : List Header, ∃ r,
      extract_email_data ⟨some ⟨some hs, none⟩⟩ = .ok r) := by
  have hext : extract_email_data m = .error .keyError := by
    rcases hcase with h |
        ⟨pl, hpl, hh⟩ |
        ⟨pl, hs, pre, p, post, hpl, hh, hparts, hpre, hp, hd⟩
    · simp [extract_email_data, h]
    · simp [extract_email_data, hpl, hh]
    · simp [extract_email_data, hpl, hh, hparts,
        scanParts_skip pre (p :: post) hpre, scanParts, hp, hd]
  refine ⟨hext, ?_, ?_, ?_⟩
  · intro get sid tok rest hget
    simp [get_sent_email_details, processStubs, hget, hext]
  · simp only [sent_details, hq, hdet]
    rfl
  · intro hs
    exact ⟨hs.foldl applyHeader ⟨none, none, none, none⟩,
      by simp [extract_email_data]⟩

/-- C10 witness: a message whose full representation has no `payload` key
yields the `KeyError`, and the route answers the 500 payload naming it. -/
theorem C10_witness :
    extract_email_data ⟨none⟩ = .error .keyError ∧
    sent_details "2024-01-01" "2024-01-31"
      (fun _ => .error (.extract .keyError)) =
      .serverFailure "Failed to fetch Gmail data: KeyError" := by
  have h := C10_missing_keys ⟨none⟩ (Or.inl rfl)
    "2024-01-01" "2024-01-31" "after:2024/01/01 before:2024/02/01" (by rfl)
    (fun _ => .error (.extract .keyError)) rfl
  exact ⟨h.1, h.2.2.1⟩

end EmailDashboard
